import Mathlib

/-!
Verification of the FM radio HAL control layer
(`src/fmradiohalcontrol.cpp` of qt5-qtmultimedia-plugin-mediaservice-halradio).

The C++ control object is embedded shallowly: its member state becomes the
`RadioState` structure, the immutable band configuration becomes `Config`,
hardware-command return codes become the `Env` record, and every Qt signal
emission or hardware command issued by a member function is collected into a
`List HalAction` returned next to the new state.  C++ `unsigned` arithmetic is
modelled as `Nat` with explicit reduction modulo `2^32` (`usub32`), and the
`static_cast<int>` conversions as `int32ofNat`.
-/

/-- `2^32`, the modulus of C++ 32-bit `unsigned` arithmetic. -/
def u32 : Nat := 4294967296

/-- C++ 32-bit unsigned subtraction `a - b` (wraps modulo `2^32`). -/
def usub32 (a b : Nat) : Nat := (a % u32 + u32 - b % u32) % u32

/-- C++ `static_cast<int>` applied to an `unsigned` value: two's-complement
reinterpretation of `n mod 2^32` as a signed 32-bit integer. -/
def int32ofNat (n : Nat) : Int :=
  if n % u32 < 2147483648 then ((n % u32 : Nat) : Int)
  else ((n % u32 : Nat) : Int) - (u32 : Int)

/-- `FREQ_HAL_TO_QT(f)`: `static_cast<int>(f) * 1000` (HAL kHz to Qt Hz). -/
def freqHalToQt (f : Nat) : Int := int32ofNat f * 1000

/-- `FREQ_QT_TO_HAL(f)`: `static_cast<unsigned int>(f) / 1000` (Qt Hz to HAL kHz). -/
def freqQtToHal (f : Int) : Nat := (f % (u32 : Int)).toNat / 1000

/-- `QRadioTuner::SearchMode`: the two full-band sweep variants. -/
inductive SearchMode where
  | searchFast
  | searchGetStationId
deriving DecidableEq, Repr

/-- The immutable band configuration (`radio_hal_band_config_t` fields the
control logic reads): band limits in HAL kHz and whether the configuration
reports no RDS capability (`fm.rds == RADIO_RDS_NONE`). -/
structure Config where
  lower_limit : Nat
  upper_limit : Nat
  rdsNone : Bool
deriving DecidableEq, Repr

/-- Return codes the hardware capability hands back to the control object for
the commands it issues (0 = success). -/
structure Env where
  scanRet : Int
  cancelRet : Int
  tuneRet : Int
deriving DecidableEq, Repr

/-- The member state of `FMRadioHalControl` relevant to the tuner/search
logic.  `timerActive` models whether `m_seekTimer` is running. -/
structure RadioState where
  tunerOpen : Bool
  tunerReady : Bool
  currentFreq : Nat
  searchMode : SearchMode
  timerActive : Bool
  searching : Bool
  searchAll : Bool
  searchAllLast : Bool
  searchWaitForRDS : Bool
  firstFoundFrequency : Nat
  searchRange : Int
  lastFrequency : Nat
  stationId : String
  stationName : String
  programType : Nat
  radioText : String
  stereoEnabled : Bool
deriving DecidableEq, Repr

/-- Observable outputs of a member-function call: Qt signal emissions and
hardware commands, in issue order. -/
inductive HalAction where
  | stationFound (freq : Int) (id : String)
  | frequencyChanged (freq : Int)
  | searchingChanged (b : Bool)
  | stereoStatusChanged (b : Bool)
  | stationIdChanged (s : String)
  | stationNameChanged (s : String)
  | programTypeChanged (t : Nat)
  | programTypeNameChanged (s : String)
  | radioTextChanged (s : String)
  | seekNextChannel
  | hwScan (up : Bool)
  | hwCancel
  | hwTune (freq : Nat)
deriving DecidableEq, Repr

/-- The frequencies carried by the `stationFound` emissions of an action
list, in emission order. -/
def foundFreqs (l : List HalAction) : List Int :=
  l.filterMap fun a =>
    match a with
    | HalAction.stationFound f _ => some f
    | _ => none

/-- `FMRadioHalControl::programTypeValue` for the US (RBDS) standard: the
`rbdsTypes` remapping table. -/
def rbdsTypeValue (type : Nat) : Nat :=
  [0, 1, 3, 4, 32, 11, 33, 34, 35, 36, 25, 27, 37, 38, 24, 39,
   40, 41, 42, 43, 44, 45, 46, 47, 0, 0, 0, 0, 0, 16, 30, 31].getD type 0

/-- `FMRadioHalControl::programTypeValue(rdsStandard, type)`: raw codes `>= 32`
collapse to 0; the world standard passes the code through, the US standard
remaps it through `rbdsTypes`. -/
def programTypeValue (rdsStandard : Nat) (type : Nat) : Nat :=
  let type := if 32 ≤ type then 0 else type
  if rdsStandard = 0 then type else rbdsTypeValue type

/-- `FMRadioHalControl::programTypeNameString` restricted to the argument
`(0, 0)`, the only point at which the control logic under verification calls
it (from `resetRDS` after clearing the program type). -/
def programTypeNameString00 : String := "No programme type or undefined"

/-- `FMRadioHalControl::tunerEnabled`: session open and ready. -/
def tunerEnabled (st : RadioState) : Bool := st.tunerOpen && st.tunerReady

/-- `FMRadioHalControl::resetRDS`: clear each RDS value that is set, emitting
the corresponding change notification. -/
def resetRDS (st : RadioState) : RadioState × List HalAction :=
  let r1 :=
    if st.radioText ≠ "" then
      ({st with radioText := ""}, [HalAction.radioTextChanged ""])
    else (st, [])
  let r2 :=
    if r1.1.stationName ≠ "" then
      ({r1.1 with stationName := ""}, [HalAction.stationNameChanged ""])
    else (r1.1, [])
  let r3 :=
    if r2.1.programType ≠ 0 then
      ({r2.1 with programType := 0},
       [HalAction.programTypeChanged (programTypeValue 0 0),
        HalAction.programTypeNameChanged programTypeNameString00])
    else (r2.1, [])
  let r4 :=
    if r3.1.stationId ≠ "" then
      ({r3.1 with stationId := ""}, [HalAction.stationIdChanged ""])
    else (r3.1, [])
  (r4.1, r1.2 ++ r2.2 ++ r3.2 ++ r4.2)

/-- `FMRadioHalControl::setSearching`: stop the watchdog when leaving the
searching state, and emit `searchingChanged` only on transition. -/
def setSearching (st : RadioState) (searching : Bool) : RadioState × List HalAction :=
  let st := if !searching && st.timerActive then {st with timerActive := false} else st
  if st.searching ≠ searching then
    ({st with searching := searching}, [HalAction.searchingChanged searching])
  else (st, [])

/-- `FMRadioHalControl::setStereoEnabled`: update and notify on change only. -/
def setStereoEnabled (st : RadioState) (enabled : Bool) : RadioState × List HalAction :=
  if enabled ≠ st.stereoEnabled then
    ({st with stereoEnabled := enabled}, [HalAction.stereoStatusChanged enabled])
  else (st, [])

/-- `FMRadioHalControl::setTuning`: issue a tune command unless no tuner is
present or the current frequency is the sentinel 0. -/
def setTuning (st : RadioState) : RadioState × List HalAction :=
  if !st.tunerOpen || st.currentFreq = 0 then (st, [])
  else (st, [HalAction.hwTune st.currentFreq])

/-- `FMRadioHalControl::seek(direction)`: arm the watchdog, issue a scan, and
on success mark searching unless a full-band sweep is driving the seek. -/
def seek (cfg : Config) (env : Env) (st : RadioState) (up : Bool) :
    RadioState × List HalAction :=
  if !tunerEnabled st then (st, [])
  else
    let r1 := if !st.searchAll then resetRDS st else (st, [])
    let st1 := {r1.1 with timerActive := true}
    let out2 := [HalAction.hwScan up]
    if env.scanRet = 0 then
      if !st1.searchAll then
        let r3 := setSearching st1 true
        (r3.1, r1.2 ++ out2 ++ r3.2)
      else (st1, r1.2 ++ out2)
    else (st1, r1.2 ++ out2)

/-- `FMRadioHalControl::searchForward`. -/
def searchForward (cfg : Config) (env : Env) (st : RadioState) :
    RadioState × List HalAction :=
  seek cfg env st true

/-- `FMRadioHalControl::searchBackward`. -/
def searchBackward (cfg : Config) (env : Env) (st : RadioState) :
    RadioState × List HalAction :=
  seek cfg env st false

/-- `FMRadioHalControl::cancelSearch`: no-op unless searching with an enabled
tuner; otherwise issue a hardware cancel, clear the sweep flags and leave the
searching state. -/
def cancelSearch (cfg : Config) (env : Env) (st : RadioState) :
    RadioState × List HalAction :=
  if !st.searching || !tunerEnabled st then (st, [])
  else
    let out1 := [HalAction.hwCancel]
    let st1 := {st with searchAll := false, searchAllLast := false, searchWaitForRDS := false}
    let r2 := setSearching st1 false
    (r2.1, out1 ++ r2.2)

/-- `FMRadioHalControl::handleSeekTimeout`: the 10-second watchdog handler. -/
def handleSeekTimeout (cfg : Config) (env : Env) (st : RadioState) :
    RadioState × List HalAction :=
  if st.searchAll then
    if st.searchMode = SearchMode.searchFast then
      cancelSearch cfg env st
    else
      if st.firstFoundFrequency = 0 then
        cancelSearch cfg env st
      else
        let out1 := [HalAction.stationFound (freqHalToQt st.currentFreq) st.stationId]
        let r2 := searchForward cfg env st
        (r2.1, out1 ++ r2.2)
  else cancelSearch cfg env st

/-- `FMRadioHalControl::searchAllStations(searchMode)`: seed the sweep
bookkeeping and kick off the first forward seek. -/
def searchAllStations (cfg : Config) (env : Env) (st : RadioState)
    (searchMode : SearchMode) : RadioState × List HalAction :=
  let r1 := resetRDS st
  let st1 :=
    if cfg.rdsNone then {r1.1 with searchMode := SearchMode.searchFast}
    else {r1.1 with searchMode := searchMode}
  let st2 :=
    if st1.searchMode = SearchMode.searchGetStationId then
      {st1 with searchWaitForRDS := true}
    else st1
  let st3 := {st2 with
    searchAll := true,
    searchAllLast := false,
    firstFoundFrequency := 0,
    searchRange := int32ofNat (usub32 cfg.upper_limit cfg.lower_limit),
    lastFrequency := usub32 st2.currentFreq cfg.lower_limit}
  let r2 := setSearching st3 true
  let r3 := searchForward cfg env r2.1
  (r3.1, r1.2 ++ r2.2 ++ r3.2)

/-- `FMRadioHalControl::setFrequency(newFrequency)`: convert, no-op on equal,
clamp into the band, then retune if the tuner is up. -/
def setFrequency (cfg : Config) (env : Env) (st : RadioState) (newFrequency : Int) :
    RadioState × List HalAction :=
  let frequency := freqQtToHal newFrequency
  if frequency = st.currentFreq then (st, [])
  else
    let frequency1 := if frequency < cfg.lower_limit then cfg.lower_limit else frequency
    let frequency2 := if cfg.upper_limit < frequency1 then cfg.upper_limit else frequency1
    let st1 := {st with currentFreq := frequency2}
    if !tunerEnabled st1 then (st1, [])
    else
      let r1 := resetRDS st1
      let r2 := setTuning r1.1
      (r2.1, r1.2 ++ r2.2)

/-- `FMRadioHalControl::tunedSearchAll(channel)`: one step of the full-band
sweep bookkeeping on a tuned event.  Returns the new state, the emitted
actions, and the C++ return value (`true` = keep sweeping). -/
def tunedSearchAll (cfg : Config) (env : Env) (st : RadioState) (channel : Nat) :
    RadioState × List HalAction × Bool :=
  let channelRelative := usub32 channel cfg.lower_limit
  let out1 : List HalAction :=
    if 0 < st.firstFoundFrequency then
      if st.searchMode = SearchMode.searchFast then
        [HalAction.stationFound (freqHalToQt channel) st.stationId]
      else []
    else []
  let stA :=
    if 0 < st.firstFoundFrequency then st
    else {st with firstFoundFrequency := channel}
  let reduce : Int :=
    if st.lastFrequency ≤ channelRelative then
      int32ofNat (usub32 channelRelative st.lastFrequency)
    else
      int32ofNat ((usub32 (usub32 cfg.upper_limit cfg.lower_limit) st.lastFrequency
        + channelRelative) % u32)
  let newRange := st.searchRange - reduce
  let st1 := {stA with
    searchRange := newRange,
    lastFrequency := usub32 channel cfg.lower_limit}
  let tail : RadioState × List HalAction × Bool :=
    if stA.firstFoundFrequency ≠ channel then
      if st.searchMode = SearchMode.searchFast then
        ({st1 with searchAllLast := true},
         out1 ++ [HalAction.stationFound (freqHalToQt stA.firstFoundFrequency) st.stationId],
         false)
      else
        ({st1 with searchAllLast := true}, out1, true)
    else
      ({st1 with searchAllLast := true}, out1, false)
  if st.searchMode = SearchMode.searchFast then
    if 0 < newRange then
      let r2 := searchForward cfg env st1
      (r2.1, out1 ++ r2.2, true)
    else tail
  else
    if 0 < newRange then (st1, out1, true)
    else tail

/-- `FMRadioHalControl::handleTuned(channel, stereo)`: adopt the reported
channel, drive the sweep step if one is active, finalize a terminated sweep,
and report the tuned frequency. -/
def handleTuned (cfg : Config) (env : Env) (st : RadioState) (channel : Nat)
    (stereo : Bool) : RadioState × List HalAction :=
  let st0 := {st with currentFreq := channel}
  let r1 :=
    if !st0.searchAllLast && st0.searchAll then tunedSearchAll cfg env st0 channel
    else (st0, [], false)
  if r1.2.2 then (r1.1, r1.2.1)
  else
    let r2 :=
      if r1.1.searchAllLast then
        setSearching {r1.1 with searchAllLast := false, searchAll := false,
                                searchWaitForRDS := false} false
      else (r1.1, [])
    let out3 := [HalAction.frequencyChanged (freqHalToQt r2.1.currentFreq)]
    let r4 := setSearching r2.1 false
    let r5 := setStereoEnabled r4.1 stereo
    (r5.1, r1.2.1 ++ r2.2 ++ out3 ++ r4.2 ++ r5.2)

/-- The character class kept by the sanitizer regexp
`[^a-zA-Z0-9 -_,;.:!#%&/()=?@£$+]` of `FMRadioHalControl::handleMetadata`,
token by token: `a-z`, `A-Z`, `0-9`, then the range from space (0x20) to
underscore (0x5F) formed by `" -_"`, then the listed punctuation and `£`. -/
def keptChar (c : Char) : Bool :=
  (0x61 ≤ c.toNat && c.toNat ≤ 0x7a) ||
  (0x41 ≤ c.toNat && c.toNat ≤ 0x5a) ||
  (0x30 ≤ c.toNat && c.toNat ≤ 0x39) ||
  (0x20 ≤ c.toNat && c.toNat ≤ 0x5f) ||
  c = ',' || c = ';' || c = '.' || c = ':' || c = '!' || c = '#' || c = '%' ||
  c = '&' || c = '/' || c = '(' || c = ')' || c = '=' || c = '?' || c = '@' ||
  c = '£' || c = '$' || c = '+'

/-- `QChar::isSpace` on the characters relevant here: ASCII whitespace. -/
def isSpaceChar (c : Char) : Bool := c.toNat = 0x20 || (0x9 ≤ c.toNat && c.toNat ≤ 0xD)

/-- `QString::trimmed`: strip leading and trailing whitespace. -/
def trimChars (l : List Char) : List Char :=
  ((l.dropWhile fun c => isSpaceChar c).reverse.dropWhile fun c => isSpaceChar c).reverse

/-- The sanitizer applied to every metadata text value:
`str.remove(regExp).trimmed()`. -/
def sanitizeText (l : List Char) : List Char :=
  trimChars (l.filter keptChar)

/-- Modelled from the spec: the allow-list as the claim words it — letters,
digits, space, and the punctuation characters literally listed in the
regexp source (`-`, `_`, `,`, `;`, `.`, `:`, `!`, `#`, `%`, `&`, `/`, `(`,
`)`, `=`, `?`, `@`, `£`, `$`, `+`). -/
def specAllowedChar (c : Char) : Bool :=
  (0x61 ≤ c.toNat && c.toNat ≤ 0x7a) ||
  (0x41 ≤ c.toNat && c.toNat ≤ 0x5a) ||
  (0x30 ≤ c.toNat && c.toNat ≤ 0x39) ||
  c = ' ' || c = '-' || c = '_' || c = ',' || c = ';' || c = '.' || c = ':' ||
  c = '!' || c = '#' || c = '%' || c = '&' || c = '/' || c = '(' || c = ')' ||
  c = '=' || c = '?' || c = '@' || c = '£' || c = '$' || c = '+'

/-- The spec's step distance on a tuned channel, transcribed from its words:
`relative = C - lower`, and forward distance with band wraparound. -/
def specDist (cfg : Config) (st : RadioState) (channel : Nat) : Int :=
  let rel : Int := (channel : Int) - (cfg.lower_limit : Int)
  if (st.lastFrequency : Int) ≤ rel then rel - (st.lastFrequency : Int)
  else ((cfg.upper_limit : Int) - (cfg.lower_limit : Int)) - (st.lastFrequency : Int) + rel

/-- The width of the band in HAL kHz. -/
def bandSpan (cfg : Config) : Nat := cfg.upper_limit - cfg.lower_limit

/-- Forward circular distance from `a` to `b` on a band of width `span`,
matching the wraparound accounting of `tunedSearchAll`. -/
def circDist (span a b : Nat) : Nat := if a ≤ b then b - a else span - a + b

/-- A fresh control object state with tuner open and ready and current
frequency `f` (constructor defaults of `FMRadioHalControl` otherwise). -/
def baseState (f : Nat) : RadioState where
  tunerOpen := true
  tunerReady := true
  currentFreq := f
  searchMode := SearchMode.searchFast
  timerActive := false
  searching := false
  searchAll := false
  searchAllLast := false
  searchWaitForRDS := false
  firstFoundFrequency := 0
  searchRange := 0
  lastFrequency := 0
  stationId := ""
  stationName := ""
  programType := 0
  radioText := ""
  stereoEnabled := true

/-- An environment in which every hardware command succeeds. -/
def env0 : Env := ⟨0, 0, 0⟩

/-- The fallback ITU-1 FM configuration of `setRadioConfigFallback`
(87.5–108 MHz, RDS available). -/
def fallbackConfig : Config where
  lower_limit := 87500
  upper_limit := 108000
  rdsNone := false

/-- The cyclic station model of a full-band scan: `n` stations at strictly
increasing relative positions `s 0 < … < s (n-1)`, visited cyclically
starting from index `i0`; `stationAt n s i0 j` is the relative position the
`j`-th tuned event reports. -/
def stationAt (n : Nat) (s : Fin n → Nat) (i0 j : Nat) : Nat :=
  if h : 0 < n then s ⟨(i0 + j) % n, Nat.mod_lt _ h⟩ else 0

/-- Position of the sweep before event `j`: the start position `p0` for
`j = 0`, afterwards the previous event's station. -/
def posAt (n : Nat) (s : Fin n → Nat) (i0 p0 : Nat) : Nat → Nat
  | 0 => p0
  | j + 1 => stationAt n s i0 j

/-- Cumulative forward progress after the first `j` tuned events. -/
def cumAt (span n : Nat) (s : Fin n → Nat) (i0 p0 : Nat) : Nat → Nat
  | 0 => 0
  | j + 1 => cumAt span n s i0 p0 j +
      circDist span (posAt n s i0 p0 j) (posAt n s i0 p0 (j + 1))

/-- Run a full-band sweep: feed tuned events `ev j, ev (j+1), …` (stereo) to
`handleTuned` while the sweep flag stays up, collecting all actions. -/
def runSweep (cfg : Config) (env : Env) (ev : Nat → Nat) :
    Nat → Nat → RadioState → RadioState × List HalAction
  | 0, _, st => (st, [])
  | fuel + 1, j, st =>
    if st.searchAll then
      let r1 := handleTuned cfg env st (ev j) true
      let r2 := runSweep cfg env ev fuel (j + 1) r1.1
      (r2.1, r1.2 ++ r2.2)
    else (st, [])

/-- The state of the control object right after `searchAllStations` is called
in fast mode on a fresh object tuned to `f`. -/
def sweepStart (cfg : Config) (env : Env) (f : Nat) : RadioState :=
  (searchAllStations cfg env (baseState f) SearchMode.searchFast).1

/-- The tuned-event channels produced by the cyclic station model. -/
def sweepEvents (cfg : Config) (n : Nat) (s : Fin n → Nat) (i0 : Nat) :
    Nat → Nat :=
  fun j => cfg.lower_limit + stationAt n s i0 j

/-- The state of a station-id sweep that has already found a channel, used to
exercise the watchdog's report-and-advance case. -/
def c4State : RadioState :=
  { baseState 90000 with
    searching := true
    searchAll := true
    timerActive := true
    searchMode := SearchMode.searchGetStationId
    firstFoundFrequency := 90100 }

/-- A fast sweep one step before exhaustion: started at 89900, first found
90100, 50 kHz of range left. -/
def c2State : RadioState :=
  { baseState 89900 with
    searching := true
    searchAll := true
    timerActive := true
    firstFoundFrequency := 90100
    searchRange := 50
    lastFrequency := 2400 }

/-- The invariant of a running fast sweep under the cyclic station model,
before consuming tuned event `j ≥ 1`. -/
def SweepInv (cfg : Config) (n : Nat) (s : Fin n → Nat) (i0 p0 : Nat)
    (j : Nat) (st : RadioState) : Prop :=
  st.tunerOpen = true ∧ st.tunerReady = true ∧
  st.searchMode = SearchMode.searchFast ∧ st.searching = true ∧
  st.searchAll = true ∧ st.searchAllLast = false ∧
  st.stereoEnabled = true ∧ st.timerActive = true ∧
  st.firstFoundFrequency = cfg.lower_limit + stationAt n s i0 0 ∧
  st.lastFrequency = posAt n s i0 p0 j ∧
  st.searchRange = (bandSpan cfg : Int) - (cumAt (bandSpan cfg) n s i0 p0 j : Int) ∧
  cumAt (bandSpan cfg) n s i0 p0 j < bandSpan cfg

/-- The state left behind by the terminal step of a fast sweep. -/
def sweepFinalState (cfg : Config) (st : RadioState) (channel : Nat) : RadioState :=
  {st with currentFreq := channel, timerActive := false, searching := false,
           searchAll := false, searchAllLast := false, searchWaitForRDS := false,
           searchRange := st.searchRange - specDist cfg st channel,
           lastFrequency := channel - cfg.lower_limit}

theorem usub32_eq_sub {a b : Nat} (hba : b ≤ a) (ha : a < u32) :
    usub32 a b = a - b := by
  have hb : b < u32 := lt_of_le_of_lt hba ha
  unfold usub32
  rw [Nat.mod_eq_of_lt ha, Nat.mod_eq_of_lt hb]
  have h1 : a + u32 - b = (a - b) + u32 := by omega
  rw [h1, Nat.add_mod_right, Nat.mod_eq_of_lt (by omega)]

theorem int32ofNat_of_lt {n : Nat} (h : n < 2147483648) :
    int32ofNat n = (n : Int) := by
  unfold int32ofNat
  rw [Nat.mod_eq_of_lt (by unfold u32; omega)]
  simp [h]

/-- C7: For every non-negative external frequency (within the range of the
32-bit `int` argument), converting to the native unit and back yields the
input rounded down to the nearest multiple of 1000. -/
theorem c7_conversion_round_trip (f : Int) (h0 : 0 ≤ f) (h1 : f < 2147483648) :
    freqHalToQt (freqQtToHal f) = 1000 * (f / 1000) := by
  unfold freqHalToQt freqQtToHal
  have hu : f < (u32 : Int) := by unfold u32; omega
  have hmod : f % (u32 : Int) = f := Int.emod_eq_of_lt h0 hu
  rw [hmod, int32ofNat_of_lt (by omega)]
  omega

theorem c7_conversion_round_trip_witness :
    freqHalToQt (freqQtToHal 90123456) = 1000 * ((90123456 : Int) / 1000) :=
  c7_conversion_round_trip 90123456 (by norm_num) (by norm_num)

theorem resetRDS_currentFreq (st : RadioState) :
    (resetRDS st).1.currentFreq = st.currentFreq := by
  simp only [resetRDS]
  repeat' split
  all_goals rfl

theorem resetRDS_searching (st : RadioState) :
    (resetRDS st).1.searching = st.searching := by
  simp only [resetRDS]
  repeat' split
  all_goals rfl

theorem resetRDS_no_searchingChanged (st : RadioState) (b : Bool) :
    HalAction.searchingChanged b ∉ (resetRDS st).2 := by
  simp only [resetRDS]
  repeat' split
  all_goals simp

theorem setTuning_fst (st : RadioState) : (setTuning st).1 = st := by
  unfold setTuning
  split
  all_goals rfl

theorem setFrequency_currentFreq (cfg : Config) (env : Env) (st : RadioState)
    (f : Int) :
    (setFrequency cfg env st f).1.currentFreq =
      if freqQtToHal f = st.currentFreq then st.currentFreq
      else min cfg.upper_limit (max cfg.lower_limit (freqQtToHal f)) := by
  unfold setFrequency
  by_cases he : freqQtToHal f = st.currentFreq
  · simp [he]
  · simp only [he, if_false, ite_false]
    have harith : (if cfg.upper_limit <
          (if freqQtToHal f < cfg.lower_limit then cfg.lower_limit else freqQtToHal f)
        then cfg.upper_limit
        else (if freqQtToHal f < cfg.lower_limit then cfg.lower_limit else freqQtToHal f)) =
        min cfg.upper_limit (max cfg.lower_limit (freqQtToHal f)) := by
      rcases Nat.lt_or_ge (freqQtToHal f) cfg.lower_limit with hc | hc
      · simp only [if_pos hc]
        split
        all_goals omega
      · simp only [if_neg (Nat.not_lt.mpr hc)]
        split
        all_goals omega
    rw [harith]
    split
    · rfl
    · rw [setTuning_fst, resetRDS_currentFreq]

/-- C8: `cancelSearch` is a strict no-op — no state change, no hardware
command, no notification — when `searching` is false or no open-and-ready
tuning session exists. -/
theorem c8_cancelSearch_noop (cfg : Config) (env : Env) (st : RadioState)
    (h : st.searching = false ∨ tunerEnabled st = false) :
    cancelSearch cfg env st = (st, []) := by
  unfold cancelSearch
  rcases h with h | h
  · simp [h]
  · simp [h]

theorem c8_cancelSearch_noop_witness :
    cancelSearch fallbackConfig env0 (baseState 90000) = (baseState 90000, []) :=
  c8_cancelSearch_noop fallbackConfig env0 (baseState 90000) (Or.inl rfl)

/-- C9: when the hardware scan command of a seek fails (non-zero return), the
`searching` flag is left exactly as it was and no `searchingChanged`
notification is emitted. -/
theorem c9_seek_failure_leaves_searching (cfg : Config) (env : Env)
    (st : RadioState) (up : Bool) (h : env.scanRet ≠ 0) :
    (seek cfg env st up).1.searching = st.searching ∧
    HalAction.searchingChanged true ∉ (seek cfg env st up).2 ∧
    HalAction.searchingChanged false ∉ (seek cfg env st up).2 := by
  unfold seek
  by_cases ht : tunerEnabled st
  · by_cases ha : st.searchAll
    · simp [ht, ha, h]
    · simp [ht, ha, h, resetRDS_searching, resetRDS_no_searchingChanged]
  · simp [ht]

theorem c9_seek_failure_leaves_searching_witness :
    ((1 : Int) ≠ 0) ∧
    ((seek fallbackConfig ⟨1, 0, 0⟩ (baseState 90000) true).1.searching =
        (baseState 90000).searching ∧
      HalAction.searchingChanged true ∉ (seek fallbackConfig ⟨1, 0, 0⟩ (baseState 90000) true).2 ∧
      HalAction.searchingChanged false ∉ (seek fallbackConfig ⟨1, 0, 0⟩ (baseState 90000) true).2) :=
  ⟨by decide, c9_seek_failure_leaves_searching fallbackConfig ⟨1, 0, 0⟩
    (baseState 90000) true (by decide)⟩

/-- C10: a negative external frequency is cast to `unsigned`, wraps to a value
above any realistic band's upper limit, and so `setFrequency` clamps the
current frequency to the upper band limit (given it started in band). -/
theorem c10_negative_clamps_to_upper (cfg : Config) (env : Env)
    (st : RadioState) (f : Int) (hneg : f < 0) (hrange : -2147483648 ≤ f)
    (hcur : st.currentFreq ≤ cfg.upper_limit)
    (hU : cfg.upper_limit < 2147483) (hL : cfg.lower_limit ≤ cfg.upper_limit) :
    cfg.upper_limit < freqQtToHal f ∧
    (setFrequency cfg env st f).1.currentFreq = cfg.upper_limit := by
  have hbig : 2147483 ≤ freqQtToHal f := by
    unfold freqQtToHal
    have hu : (u32 : Int) = 4294967296 := by unfold u32; norm_num
    rw [hu]
    omega
  refine ⟨by omega, ?_⟩
  rw [setFrequency_currentFreq]
  have hne : ¬ (freqQtToHal f = st.currentFreq) := by omega
  simp only [hne, if_false, ite_false]
  omega

theorem c10_negative_clamps_to_upper_witness :
    fallbackConfig.upper_limit < freqQtToHal (-1) ∧
    (setFrequency fallbackConfig env0 (baseState 90000) (-1)).1.currentFreq =
      fallbackConfig.upper_limit :=
  c10_negative_clamps_to_upper fallbackConfig env0 (baseState 90000) (-1)
    (by norm_num) (by norm_num) (by decide) (by decide) (by decide)

/-- C5 counterexample: the tuned-event handler adopts the hardware-reported
channel without clamping, so an out-of-band tuned event (200000 kHz on the
87500–108000 band) leaves the current frequency outside the band, refuting
the claim for event handlers. -/
theorem c5_counterexample_handleTuned_unclamped :
    (handleTuned fallbackConfig env0 (baseState 90000) 200000 true).1.currentFreq = 200000 ∧
    ¬ ((handleTuned fallbackConfig env0 (baseState 90000) 200000 true).1.currentFreq ≤
        fallbackConfig.upper_limit) := by
  refine ⟨by decide, by decide⟩

/-- C5 amended: `setFrequency` never moves the current frequency out of
`[lower_limit, upper_limit]` — for any requested input, including negative
and above-range values — provided it was in band before the call; event
handlers preserve the band invariant only for in-band hardware reports. -/
theorem c5_amended_setFrequency_in_band (cfg : Config) (env : Env)
    (st : RadioState) (f : Int) (hL : cfg.lower_limit ≤ cfg.upper_limit)
    (h1 : cfg.lower_limit ≤ st.currentFreq) (h2 : st.currentFreq ≤ cfg.upper_limit) :
    cfg.lower_limit ≤ (setFrequency cfg env st f).1.currentFreq ∧
    (setFrequency cfg env st f).1.currentFreq ≤ cfg.upper_limit := by
  rw [setFrequency_currentFreq]
  constructor
  all_goals split
  all_goals omega

theorem c5_amended_setFrequency_in_band_witness :
    (fallbackConfig.lower_limit ≤ fallbackConfig.upper_limit ∧
      fallbackConfig.lower_limit ≤ (baseState 90000).currentFreq ∧
      (baseState 90000).currentFreq ≤ fallbackConfig.upper_limit) ∧
    (fallbackConfig.lower_limit ≤
        (setFrequency fallbackConfig env0 (baseState 90000) (-5)).1.currentFreq ∧
      (setFrequency fallbackConfig env0 (baseState 90000) (-5)).1.currentFreq ≤
        fallbackConfig.upper_limit) :=
  ⟨⟨by decide, by decide, by decide⟩,
    c5_amended_setFrequency_in_band fallbackConfig env0 (baseState 90000) (-5)
      (by decide) (by decide) (by decide)⟩

/-- C6 counterexample: the character class of the sanitizer regexp contains
the range `" -_"` (space through underscore), so `<` — neither a letter, a
digit, a space, nor one of the punctuation characters listed in the pattern —
survives sanitization, refuting the claimed allow-list. -/
theorem c6_counterexample_angle_bracket_kept :
    sanitizeText ['<'] = ['<'] ∧ specAllowedChar '<' = false := by
  refine ⟨by decide, by decide⟩

/-- C6 amended: every character of a sanitized text value lies in the class
the regexp actually keeps — the ASCII range 0x20–0x5F (uppercase letters,
digits, space and all punctuation in that range) together with the lowercase
letters and `£`. -/
theorem c6_amended_sanitize_allowlist (l : List Char) (c : Char)
    (h : c ∈ sanitizeText l) : keptChar c = true := by
  unfold sanitizeText trimChars at h
  rw [List.mem_reverse] at h
  have h2 := (List.dropWhile_sublist _).subset h
  rw [List.mem_reverse] at h2
  have h3 := (List.dropWhile_sublist _).subset h2
  exact (List.mem_filter.mp h3).2

theorem c6_amended_sanitize_allowlist_witness :
    ('a' ∈ sanitizeText ['a']) ∧ keptChar 'a' = true :=
  ⟨by decide, c6_amended_sanitize_allowlist ['a'] 'a' (by decide)⟩

theorem resetRDS_searchRange (st : RadioState) :
    (resetRDS st).1.searchRange = st.searchRange := by
  simp only [resetRDS]
  repeat' split
  all_goals rfl

theorem resetRDS_lastFrequency (st : RadioState) :
    (resetRDS st).1.lastFrequency = st.lastFrequency := by
  simp only [resetRDS]
  repeat' split
  all_goals rfl

theorem resetRDS_searchAll (st : RadioState) :
    (resetRDS st).1.searchAll = st.searchAll := by
  simp only [resetRDS]
  repeat' split
  all_goals rfl

theorem setSearching_searchRange (st : RadioState) (b : Bool) :
    (setSearching st b).1.searchRange = st.searchRange := by
  simp only [setSearching]
  repeat' split
  all_goals rfl

theorem setSearching_lastFrequency (st : RadioState) (b : Bool) :
    (setSearching st b).1.lastFrequency = st.lastFrequency := by
  simp only [setSearching]
  repeat' split
  all_goals rfl

theorem seek_searchRange (cfg : Config) (env : Env) (st : RadioState) (up : Bool) :
    (seek cfg env st up).1.searchRange = st.searchRange := by
  unfold seek
  repeat' split
  all_goals simp_all [setSearching_searchRange, resetRDS_searchRange, resetRDS_searchAll]

theorem seek_lastFrequency (cfg : Config) (env : Env) (st : RadioState) (up : Bool) :
    (seek cfg env st up).1.lastFrequency = st.lastFrequency := by
  unfold seek
  repeat' split
  all_goals simp_all [setSearching_lastFrequency, resetRDS_lastFrequency, resetRDS_searchAll]

/-- The behavior of `seek` during a healthy sweep step: the sweep flag
suppresses the RDS reset and the searching transition, so only the watchdog
is re-armed and a scan command goes out. -/
theorem seek_sweeping (cfg : Config) (env : Env) (st : RadioState) (up : Bool)
    (ht : tunerEnabled st = true) (ha : st.searchAll = true)
    (hs : env.scanRet = 0) :
    seek cfg env st up = ({st with timerActive := true}, [HalAction.hwScan up]) := by
  unfold seek
  simp [ht, ha, hs]

/-- The `reduce` computed by `tunedSearchAll` equals the spec's forward
distance when the tuned channel is in band and the bookkeeping is in its
reachable range. -/
theorem tunedSearchAll_reduce (cfg : Config) (st : RadioState) (channel : Nat)
    (h1 : cfg.lower_limit ≤ channel) (h2 : channel ≤ cfg.upper_limit)
    (h3 : cfg.upper_limit < 2147483648)
    (h4 : st.lastFrequency ≤ cfg.upper_limit - cfg.lower_limit) :
    (if st.lastFrequency ≤ usub32 channel cfg.lower_limit then
        int32ofNat (usub32 (usub32 channel cfg.lower_limit) st.lastFrequency)
      else
        int32ofNat ((usub32 (usub32 cfg.upper_limit cfg.lower_limit) st.lastFrequency
          + usub32 channel cfg.lower_limit) % u32)) = specDist cfg st channel := by
  have hu32 : u32 = 4294967296 := rfl
  have hcu : channel < u32 := by omega
  have huu : cfg.upper_limit < u32 := by omega
  have hrel : usub32 channel cfg.lower_limit = channel - cfg.lower_limit :=
    usub32_eq_sub h1 hcu
  have hspan : usub32 cfg.upper_limit cfg.lower_limit = cfg.upper_limit - cfg.lower_limit :=
    usub32_eq_sub (le_trans h1 h2) huu
  rw [hrel, hspan]
  simp only [specDist]
  by_cases hc : st.lastFrequency ≤ channel - cfg.lower_limit
  · rw [if_pos hc, usub32_eq_sub hc (by omega), int32ofNat_of_lt (by omega),
      if_pos (by omega)]
    omega
  · rw [if_neg hc, usub32_eq_sub h4 (by omega),
      Nat.mod_eq_of_lt (by omega), int32ofNat_of_lt (by omega),
      if_neg (by omega)]
    omega

/-- C1: on every tuned event delivering an in-band channel during a sweep,
the step handler decrements the remaining range by exactly the forward
distance `relative - lastFrequencyRelative` (or its wraparound variant) and
sets the last-frequency-relative bookkeeping to `relative = C - lower`. -/
theorem c1_step_accounting (cfg : Config) (env : Env) (st : RadioState)
    (channel : Nat)
    (h1 : cfg.lower_limit ≤ channel) (h2 : channel ≤ cfg.upper_limit)
    (h3 : cfg.upper_limit < 2147483648)
    (h4 : st.lastFrequency ≤ cfg.upper_limit - cfg.lower_limit) :
    (tunedSearchAll cfg env st channel).1.searchRange =
      st.searchRange - specDist cfg st channel ∧
    ((tunedSearchAll cfg env st channel).1.lastFrequency : Int) =
      (channel : Int) - (cfg.lower_limit : Int) := by
  have hcu : channel < u32 := by
    have : u32 = 4294967296 := rfl
    omega
  have hrel : usub32 channel cfg.lower_limit = channel - cfg.lower_limit :=
    usub32_eq_sub h1 hcu
  have hred := tunedSearchAll_reduce cfg st channel h1 h2 h3 h4
  simp only [tunedSearchAll]
  rw [hred, hrel]
  constructor
  · repeat' split
    all_goals simp [searchForward, seek_searchRange]
  · repeat' split
    all_goals simp [searchForward, seek_lastFrequency]
    all_goals omega

theorem c1_step_accounting_witness :
    (fallbackConfig.lower_limit ≤ 99900 ∧ 99900 ≤ fallbackConfig.upper_limit ∧
      fallbackConfig.upper_limit < 2147483648 ∧
      (sweepStart fallbackConfig env0 90000).lastFrequency ≤
        fallbackConfig.upper_limit - fallbackConfig.lower_limit) ∧
    ((tunedSearchAll fallbackConfig env0 (sweepStart fallbackConfig env0 90000) 99900).1.searchRange =
        (sweepStart fallbackConfig env0 90000).searchRange -
          specDist fallbackConfig (sweepStart fallbackConfig env0 90000) 99900 ∧
      ((tunedSearchAll fallbackConfig env0 (sweepStart fallbackConfig env0 90000) 99900).1.lastFrequency : Int) =
        (99900 : Int) - (fallbackConfig.lower_limit : Int)) :=
  ⟨⟨by decide, by decide, by decide, by decide⟩,
    c1_step_accounting fallbackConfig env0 (sweepStart fallbackConfig env0 90000) 99900
      (by decide) (by decide) (by decide) (by decide)⟩

/-- C4: each firing of the 10-second watchdog cancels the search when no
sweep is active, when a fast-mode sweep is active, or when a station-id sweep
has found nothing yet; otherwise it reports the current channel with the held
station identifier (possibly empty) and issues the next forward seek. -/
theorem c4_watchdog (cfg : Config) (env : Env) (st : RadioState) :
    (st.searchAll = false → handleSeekTimeout cfg env st = cancelSearch cfg env st) ∧
    (st.searchAll = true → st.searchMode = SearchMode.searchFast →
      handleSeekTimeout cfg env st = cancelSearch cfg env st) ∧
    (st.searchAll = true → st.searchMode = SearchMode.searchGetStationId →
      st.firstFoundFrequency = 0 →
      handleSeekTimeout cfg env st = cancelSearch cfg env st) ∧
    (st.searchAll = true → st.searchMode = SearchMode.searchGetStationId →
      st.firstFoundFrequency ≠ 0 →
      handleSeekTimeout cfg env st =
        ((searchForward cfg env st).1,
          HalAction.stationFound (freqHalToQt st.currentFreq) st.stationId ::
            (searchForward cfg env st).2)) := by
  refine ⟨fun h => ?_, fun h hm => ?_, fun h hm hf => ?_, fun h hm hf => ?_⟩
  · unfold handleSeekTimeout
    simp [h]
  · unfold handleSeekTimeout
    simp [h, hm]
  · unfold handleSeekTimeout
    simp [h, hm, hf]
  · unfold handleSeekTimeout
    simp [h, hm, hf]

theorem c4_watchdog_witness :
    handleSeekTimeout fallbackConfig env0 c4State =
      ((searchForward fallbackConfig env0 c4State).1,
        HalAction.stationFound (freqHalToQt c4State.currentFreq) c4State.stationId ::
          (searchForward fallbackConfig env0 c4State).2) :=
  (c4_watchdog fallbackConfig env0 c4State).2.2.2 rfl rfl (by decide)

theorem foundFreqs_append (a b : List HalAction) :
    foundFreqs (a ++ b) = foundFreqs a ++ foundFreqs b := by
  simp [foundFreqs]

theorem setSearching_searching_false (st : RadioState) :
    (setSearching st false).1.searching = false := by
  simp only [setSearching]
  repeat' split
  all_goals simp_all

theorem setSearching_searchAll (st : RadioState) (b : Bool) :
    (setSearching st b).1.searchAll = st.searchAll := by
  simp only [setSearching]
  repeat' split
  all_goals rfl

theorem setSearching_foundFreqs (st : RadioState) (b : Bool) :
    foundFreqs (setSearching st b).2 = [] := by
  simp only [setSearching]
  repeat' split
  all_goals rfl

theorem setStereoEnabled_searching (st : RadioState) (b : Bool) :
    (setStereoEnabled st b).1.searching = st.searching := by
  unfold setStereoEnabled
  split
  all_goals rfl

theorem setStereoEnabled_searchAll (st : RadioState) (b : Bool) :
    (setStereoEnabled st b).1.searchAll = st.searchAll := by
  unfold setStereoEnabled
  split
  all_goals rfl

theorem setStereoEnabled_foundFreqs (st : RadioState) (b : Bool) :
    foundFreqs (setStereoEnabled st b).2 = [] := by
  unfold setStereoEnabled
  split
  all_goals rfl

/-- C2: when a tuned event during a fast-mode sweep exhausts the remaining
range and the newly tuned channel differs from the recorded first-found
frequency, the step emits a `stationFound` carrying the final channel's
frequency and then finalizes the sweep (sweep flag and searching cleared). -/
theorem c2_fast_exhaustion_reports_final (cfg : Config) (env : Env)
    (st : RadioState) (channel : Nat) (b : Bool)
    (h1 : cfg.lower_limit ≤ channel) (h2 : channel ≤ cfg.upper_limit)
    (h3 : cfg.upper_limit < 2147483648)
    (h4 : st.lastFrequency ≤ cfg.upper_limit - cfg.lower_limit)
    (hall : st.searchAll = true) (hlast : st.searchAllLast = false)
    (hmode : st.searchMode = SearchMode.searchFast)
    (hff : 0 < st.firstFoundFrequency) (hne : st.firstFoundFrequency ≠ channel)
    (hex : st.searchRange ≤ specDist cfg st channel) :
    freqHalToQt channel ∈ foundFreqs (handleTuned cfg env st channel b).2 ∧
    (handleTuned cfg env st channel b).1.searchAll = false ∧
    (handleTuned cfg env st channel b).1.searching = false := by
  have hred := tunedSearchAll_reduce cfg st channel h1 h2 h3 h4
  have hnr : ¬ (0 < st.searchRange - specDist cfg st channel) := by omega
  have hstep : tunedSearchAll cfg env {st with currentFreq := channel} channel =
      ({st with currentFreq := channel,
                searchRange := st.searchRange - specDist cfg st channel,
                lastFrequency := usub32 channel cfg.lower_limit,
                searchAllLast := true},
       [HalAction.stationFound (freqHalToQt channel) st.stationId,
        HalAction.stationFound (freqHalToQt st.firstFoundFrequency) st.stationId],
       false) := by
    unfold tunedSearchAll
    simp [hff, hmode, hred, hne, hnr]
  unfold handleTuned
  simp only [hall, hlast] at hstep
  simp [hall, hlast, hstep, setSearching_searching_false, setSearching_searchAll,
    setSearching_foundFreqs, setStereoEnabled_searching, setStereoEnabled_searchAll,
    setStereoEnabled_foundFreqs, foundFreqs_append, foundFreqs]

theorem c2_fast_exhaustion_reports_final_witness :
    (c2State.searchRange ≤ specDist fallbackConfig c2State 90000 ∧
      0 < c2State.firstFoundFrequency ∧ c2State.firstFoundFrequency ≠ 90000) ∧
    (freqHalToQt 90000 ∈ foundFreqs (handleTuned fallbackConfig env0 c2State 90000 true).2 ∧
      (handleTuned fallbackConfig env0 c2State 90000 true).1.searchAll = false ∧
      (handleTuned fallbackConfig env0 c2State 90000 true).1.searching = false) :=
  ⟨⟨by decide, by decide, by decide⟩,
    c2_fast_exhaustion_reports_final fallbackConfig env0 c2State 90000 true
      (by decide) (by decide) (by decide) (by decide) rfl rfl rfl
      (by decide) (by decide) (by decide)⟩

/-- C3 counterexample: a fast full-band sweep on the fallback band, started
in band at 90000, whose tuned events keep reporting the single station at
90100 (the hardware wraps the whole band and lands on the same channel),
emits the same frequency repeatedly: the emission sequence has duplicates
and the range never decreases. -/
theorem c3_counterexample_single_station_duplicates :
    ¬ (foundFreqs (runSweep fallbackConfig env0 (fun _ => 90100) 3 0
        (sweepStart fallbackConfig env0 90000)).2).Nodup := by
  decide

theorem mod_small_cases {a n : Nat} (h1 : a ≤ n) :
    a % n = if a = n then 0 else a := by
  rcases eq_or_lt_of_le h1 with h | h
  · subst h
    simp [Nat.mod_self]
  · rw [if_neg (by omega), Nat.mod_eq_of_lt h]

theorem circDist_pos {span a b : Nat} (ha : a < span) (hne : a ≠ b) :
    0 < circDist span a b := by
  unfold circDist
  split
  all_goals omega

theorem circDist_lt {span a b : Nat} (ha : a ≤ span) (hb : b < span) :
    circDist span a b < span := by
  unfold circDist
  split
  all_goals omega

theorem stationAt_lt {n : Nat} {s : Fin n → Nat} {m : Nat}
    (hs : ∀ i, s i < m) (hn : 0 < n) (i0 j : Nat) : stationAt n s i0 j < m := by
  unfold stationAt
  rw [dif_pos hn]
  exact hs _

theorem stationAt_eq_iff {n : Nat} {s : Fin n → Nat} (hn : 0 < n)
    (hmono : StrictMono s) (i0 j k : Nat) :
    stationAt n s i0 j = stationAt n s i0 k ↔ j % n = k % n := by
  unfold stationAt
  rw [dif_pos hn, dif_pos hn]
  constructor
  · intro h
    have h2 := hmono.injective h
    have h3 : (i0 + j) % n = (i0 + k) % n := by
      simpa [Fin.mk.injEq] using h2
    exact Nat.ModEq.add_left_cancel' i0 h3
  · intro h
    have h3 : (i0 + j) % n = (i0 + k) % n := Nat.ModEq.add_left i0 h
    congr 1
    exact Fin.mk_eq_mk.mpr h3

theorem stationAt_succ_ne {n : Nat} {s : Fin n → Nat} (hn : 2 ≤ n)
    (hmono : StrictMono s) (i0 j : Nat) :
    stationAt n s i0 j ≠ stationAt n s i0 (j + 1) := by
  intro hsta
  rw [stationAt_eq_iff (by omega) hmono] at hsta
  have h := hsta
  have hmodeq : j ≡ j + 1 [MOD n] := h
  have hdvd : n ∣ (j + 1) - j := (Nat.modEq_iff_dvd' (by omega)).mp hmodeq
  have : n ∣ 1 := by simpa using hdvd
  have := Nat.le_of_dvd (by omega) this
  omega

theorem posAt_le {n : Nat} {s : Fin n → Nat} {i0 p0 span : Nat}
    (hn : 0 < n) (hp0 : p0 ≤ span) (hs : ∀ i, s i < span) (j : Nat) :
    posAt n s i0 p0 j ≤ span := by
  cases j with
  | zero => exact hp0
  | succ j => exact le_of_lt (stationAt_lt hs hn i0 j)

theorem posAt_lt_of_pos {n : Nat} {s : Fin n → Nat} {i0 p0 span : Nat}
    (hn : 0 < n) (hs : ∀ i, s i < span) (j : Nat) (hj : 1 ≤ j) :
    posAt n s i0 p0 j < span := by
  cases j with
  | zero => omega
  | succ j => exact stationAt_lt hs hn i0 j

theorem cumAt_succ (span n : Nat) (s : Fin n → Nat) (i0 p0 j : Nat) :
    cumAt span n s i0 p0 (j + 1) = cumAt span n s i0 p0 j +
      circDist span (posAt n s i0 p0 j) (posAt n s i0 p0 (j + 1)) := rfl

theorem cumAt_mono (span n : Nat) (s : Fin n → Nat) (i0 p0 : Nat)
    {j k : Nat} (h : j ≤ k) :
    cumAt span n s i0 p0 j ≤ cumAt span n s i0 p0 k := by
  induction k with
  | zero =>
    have : j = 0 := by omega
    simp [this]
  | succ k ih =>
    rcases Nat.lt_or_ge j (k + 1) with h2 | h2
    · have := ih (by omega)
      rw [cumAt_succ]
      omega
    · have : j = k + 1 := by omega
      simp [this]

theorem posAt_mod {n : Nat} {s : Fin n → Nat} {i0 p0 span : Nat}
    (hn : 0 < n) (hspan : 0 < span) (hp0 : p0 ≤ span) (hs : ∀ i, s i < span)
    (j : Nat) :
    (p0 + cumAt span n s i0 p0 j) % span = posAt n s i0 p0 j % span := by
  induction j with
  | zero => simp [cumAt, posAt]
  | succ j ih =>
    have hle : posAt n s i0 p0 j ≤ span := posAt_le hn hp0 hs j
    have hlt : posAt n s i0 p0 (j + 1) < span := posAt_lt_of_pos hn hs (j + 1) (by omega)
    have hstep : (posAt n s i0 p0 j +
        circDist span (posAt n s i0 p0 j) (posAt n s i0 p0 (j + 1))) % span =
        posAt n s i0 p0 (j + 1) % span := by
      unfold circDist
      rcases le_or_lt (posAt n s i0 p0 j) (posAt n s i0 p0 (j + 1)) with hc | hc
      · rw [if_pos hc]
        congr 1
        omega
      · rw [if_neg (by omega)]
        have h2 : posAt n s i0 p0 j +
            (span - posAt n s i0 p0 j + posAt n s i0 p0 (j + 1)) =
            span + posAt n s i0 p0 (j + 1) := by omega
        rw [h2, Nat.add_mod_left]
    calc (p0 + cumAt span n s i0 p0 (j + 1)) % span
        = ((p0 + cumAt span n s i0 p0 j) +
            circDist span (posAt n s i0 p0 j) (posAt n s i0 p0 (j + 1))) % span := by
          rw [cumAt_succ]
          ring_nf
      _ = ((p0 + cumAt span n s i0 p0 j) % span +
            circDist span (posAt n s i0 p0 j) (posAt n s i0 p0 (j + 1)) % span) % span :=
          Nat.add_mod _ _ _
      _ = (posAt n s i0 p0 j % span +
            circDist span (posAt n s i0 p0 j) (posAt n s i0 p0 (j + 1)) % span) % span := by
          rw [ih]
      _ = (posAt n s i0 p0 j +
            circDist span (posAt n s i0 p0 j) (posAt n s i0 p0 (j + 1))) % span :=
          (Nat.add_mod _ _ _).symm
      _ = posAt n s i0 p0 (j + 1) % span := hstep

theorem cumAt_full_cycle {n : Nat} {s : Fin n → Nat} {i0 p0 span : Nat}
    (hn : 2 ≤ n) (hmono : StrictMono s) (hspan : 0 < span)
    (hp0 : p0 ≤ span) (hs : ∀ i, s i < span) :
    span ≤ cumAt span n s i0 p0 (n + 1) := by
  have hper : posAt n s i0 p0 (n + 1) = posAt n s i0 p0 1 := by
    show stationAt n s i0 n = stationAt n s i0 0
    rw [stationAt_eq_iff (by omega) hmono]
    simp [Nat.mod_self]
  have hc1 := @posAt_mod n s i0 p0 span (by omega) hspan hp0 hs 1
  have hcn := @posAt_mod n s i0 p0 span (by omega) hspan hp0 hs (n + 1)
  have hmle : cumAt span n s i0 p0 1 ≤ cumAt span n s i0 p0 (n + 1) :=
    cumAt_mono span n s i0 p0 (by omega)
  have hdvd : span ∣ (cumAt span n s i0 p0 (n + 1) - cumAt span n s i0 p0 1) := by
    have heq : (p0 + cumAt span n s i0 p0 1) % span =
        (p0 + cumAt span n s i0 p0 (n + 1)) % span := by
      rw [hc1, hcn, hper]
    have hmodeq : p0 + cumAt span n s i0 p0 1 ≡
        p0 + cumAt span n s i0 p0 (n + 1) [MOD span] := heq
    have hmodeq2 : cumAt span n s i0 p0 1 ≡
        cumAt span n s i0 p0 (n + 1) [MOD span] :=
      Nat.ModEq.add_left_cancel' p0 hmodeq
    exact (Nat.modEq_iff_dvd' hmle).mp hmodeq2
  have hpos : 0 < cumAt span n s i0 p0 (n + 1) - cumAt span n s i0 p0 1 := by
    have h12 : cumAt span n s i0 p0 1 + 1 ≤ cumAt span n s i0 p0 2 := by
      have e2 : cumAt span n s i0 p0 2 = cumAt span n s i0 p0 1 +
          circDist span (posAt n s i0 p0 1) (posAt n s i0 p0 2) :=
        cumAt_succ span n s i0 p0 1
      have hne : posAt n s i0 p0 1 ≠ posAt n s i0 p0 2 :=
        stationAt_succ_ne hn hmono i0 0
      have hlt1 : posAt n s i0 p0 1 < span := posAt_lt_of_pos (by omega) hs 1 (by omega)
      have := circDist_pos hlt1 hne
      omega
    have h2n : cumAt span n s i0 p0 2 ≤ cumAt span n s i0 p0 (n + 1) :=
      cumAt_mono span n s i0 p0 (by omega)
    omega
  have := Nat.le_of_dvd hpos hdvd
  omega

theorem specDist_as_circDist (cfg : Config) (st : RadioState) (r : Nat)
    (hr : st.lastFrequency ≤ bandSpan cfg) (hLU : cfg.lower_limit ≤ cfg.upper_limit) :
    specDist cfg st (cfg.lower_limit + r) =
      (circDist (bandSpan cfg) st.lastFrequency r : Int) := by
  simp only [specDist, circDist, bandSpan] at *
  rcases le_or_lt st.lastFrequency r with hc | hc
  · rw [if_pos (by push_cast; omega), if_pos hc]
    push_cast
    omega
  · rw [if_neg (by push_cast; omega), if_neg (by omega)]
    push_cast
    omega

theorem freqHalToQt_inj {a b : Nat} (ha : a < 2147483648) (hb : b < 2147483648)
    (h : freqHalToQt a = freqHalToQt b) : a = b := by
  unfold freqHalToQt at h
  rw [int32ofNat_of_lt ha, int32ofNat_of_lt hb] at h
  omega

/-- The first tuned event of a sweep (no first-found yet): the channel is
recorded as the wraparound sentinel without being reported, and the sweep
continues with the next forward scan. -/
theorem handleTuned_sweep_first (cfg : Config) (env : Env) (st : RadioState)
    (channel : Nat)
    (h1 : cfg.lower_limit ≤ channel) (h2 : channel ≤ cfg.upper_limit)
    (h3 : cfg.upper_limit < 2147483648)
    (h4 : st.lastFrequency ≤ cfg.upper_limit - cfg.lower_limit)
    (hopen : st.tunerOpen = true) (hready : st.tunerReady = true)
    (hscan : env.scanRet = 0)
    (hall : st.searchAll = true) (hlast : st.searchAllLast = false)
    (hmode : st.searchMode = SearchMode.searchFast)
    (hff : st.firstFoundFrequency = 0)
    (hcont : 0 < st.searchRange - specDist cfg st channel) :
    handleTuned cfg env st channel true =
      ({st with currentFreq := channel, firstFoundFrequency := channel,
                timerActive := true,
                searchRange := st.searchRange - specDist cfg st channel,
                lastFrequency := channel - cfg.lower_limit},
       [HalAction.hwScan true]) := by
  have hred := tunedSearchAll_reduce cfg st channel h1 h2 h3 h4
  have hrel : usub32 channel cfg.lower_limit = channel - cfg.lower_limit :=
    usub32_eq_sub h1 (by have : u32 = 4294967296 := rfl; omega)
  rw [hrel] at hred
  have hcont2 : specDist cfg st channel < st.searchRange := by omega
  have hstep : tunedSearchAll cfg env {st with currentFreq := channel} channel =
      ({st with currentFreq := channel, firstFoundFrequency := channel,
                timerActive := true,
                searchRange := st.searchRange - specDist cfg st channel,
                lastFrequency := channel - cfg.lower_limit},
       [HalAction.hwScan true], true) := by
    unfold tunedSearchAll
    simp [hff, hmode, hred, hrel, hcont2, searchForward, seek, tunerEnabled,
      hopen, hready, hall, hscan]
  unfold handleTuned
  simp only [hall, hlast] at hstep
  simp [hall, hlast, hstep]

/-- A tuned event of a sweep in fast mode after the first: the channel is
reported immediately; the sweep continues while range remains, and otherwise
finalizes, reporting the deferred first-found channel exactly when it
differs from the final one. -/
theorem handleTuned_sweep_next (cfg : Config) (env : Env) (st : RadioState)
    (channel : Nat)
    (h1 : cfg.lower_limit ≤ channel) (h2 : channel ≤ cfg.upper_limit)
    (h3 : cfg.upper_limit < 2147483648)
    (h4 : st.lastFrequency ≤ cfg.upper_limit - cfg.lower_limit)
    (hopen : st.tunerOpen = true) (hready : st.tunerReady = true)
    (hscan : env.scanRet = 0)
    (hall : st.searchAll = true) (hlast : st.searchAllLast = false)
    (hmode : st.searchMode = SearchMode.searchFast)
    (hsearching : st.searching = true) (hstereo : st.stereoEnabled = true)
    (htimer : st.timerActive = true)
    (hff : 0 < st.firstFoundFrequency) :
    handleTuned cfg env st channel true =
      if 0 < st.searchRange - specDist cfg st channel then
        ({st with currentFreq := channel, timerActive := true,
                  searchRange := st.searchRange - specDist cfg st channel,
                  lastFrequency := channel - cfg.lower_limit},
         [HalAction.stationFound (freqHalToQt channel) st.stationId,
          HalAction.hwScan true])
      else if st.firstFoundFrequency ≠ channel then
        (sweepFinalState cfg st channel,
         [HalAction.stationFound (freqHalToQt channel) st.stationId,
          HalAction.stationFound (freqHalToQt st.firstFoundFrequency) st.stationId,
          HalAction.searchingChanged false,
          HalAction.frequencyChanged (freqHalToQt channel)])
      else
        (sweepFinalState cfg st channel,
         [HalAction.stationFound (freqHalToQt channel) st.stationId,
          HalAction.searchingChanged false,
          HalAction.frequencyChanged (freqHalToQt channel)]) := by
  have hred := tunedSearchAll_reduce cfg st channel h1 h2 h3 h4
  have hrel : usub32 channel cfg.lower_limit = channel - cfg.lower_limit :=
    usub32_eq_sub h1 (by have : u32 = 4294967296 := rfl; omega)
  rw [hrel] at hred
  by_cases hcont : 0 < st.searchRange - specDist cfg st channel
  · rw [if_pos hcont]
    have hstep : tunedSearchAll cfg env {st with currentFreq := channel} channel =
        ({st with currentFreq := channel, timerActive := true,
                  searchRange := st.searchRange - specDist cfg st channel,
                  lastFrequency := channel - cfg.lower_limit},
         [HalAction.stationFound (freqHalToQt channel) st.stationId,
          HalAction.hwScan true], true) := by
      have hcont2 : specDist cfg st channel < st.searchRange := by omega
      unfold tunedSearchAll
      simp [hff, hmode, hred, hrel, hcont2, searchForward, seek, tunerEnabled,
        hopen, hready, hall, hscan]
    unfold handleTuned
    simp only [hall, hlast] at hstep
    simp [hall, hlast, hstep]
  · rw [if_neg hcont]
    by_cases hne : st.firstFoundFrequency ≠ channel
    · rw [if_pos hne]
      have hstep : tunedSearchAll cfg env {st with currentFreq := channel} channel =
          ({st with currentFreq := channel, searchAllLast := true,
                    searchRange := st.searchRange - specDist cfg st channel,
                    lastFrequency := channel - cfg.lower_limit},
           [HalAction.stationFound (freqHalToQt channel) st.stationId,
            HalAction.stationFound (freqHalToQt st.firstFoundFrequency) st.stationId],
           false) := by
        have hcont2 : ¬ (specDist cfg st channel < st.searchRange) := by omega
        unfold tunedSearchAll
        simp [hff, hmode, hred, hrel, hcont2, hne]
      unfold handleTuned
      simp only [hall, hlast, hsearching, hstereo, htimer] at hstep
      unfold sweepFinalState
      simp [hall, hlast, hsearching, hstereo, htimer, hstep, setSearching,
        setStereoEnabled]
    · rw [if_neg hne]
      push_neg at hne
      have hstep : tunedSearchAll cfg env {st with currentFreq := channel} channel =
          ({st with currentFreq := channel, searchAllLast := true,
                    searchRange := st.searchRange - specDist cfg st channel,
                    lastFrequency := channel - cfg.lower_limit},
           [HalAction.stationFound (freqHalToQt channel) st.stationId],
           false) := by
        have hcont2 : ¬ (specDist cfg st channel < st.searchRange) := by omega
        have hch : 0 < channel := by omega
        unfold tunedSearchAll
        simp [hff, hmode, hred, hrel, hcont2, hne, hch]
      unfold handleTuned
      simp only [hall, hlast, hsearching, hstereo, htimer] at hstep
      unfold sweepFinalState
      simp [hall, hlast, hsearching, hstereo, htimer, hstep, setSearching,
        setStereoEnabled]

/-- `runSweep` stops as soon as the sweep flag is down. -/
theorem runSweep_not_searchAll (cfg : Config) (env : Env) (ev : Nat → Nat)
    (fuel j : Nat) (st : RadioState) (h : st.searchAll = false) :
    runSweep cfg env ev fuel j st = (st, []) := by
  cases fuel with
  | zero => rfl
  | succ fuel =>
    unfold runSweep
    simp [h]

theorem runSweep_succ (cfg : Config) (env : Env) (ev : Nat → Nat)
    (fuel j : Nat) (st : RadioState) (h : st.searchAll = true) :
    runSweep cfg env ev (fuel + 1) j st =
      ((runSweep cfg env ev fuel (j + 1) (handleTuned cfg env st (ev j) true).1).1,
       (handleTuned cfg env st (ev j) true).2 ++
         (runSweep cfg env ev fuel (j + 1) (handleTuned cfg env st (ev j) true).1).2) := by
  have hunfold : runSweep cfg env ev (fuel + 1) j st =
      if st.searchAll then
        ((runSweep cfg env ev fuel (j + 1) (handleTuned cfg env st (ev j) true).1).1,
         (handleTuned cfg env st (ev j) true).2 ++
           (runSweep cfg env ev fuel (j + 1) (handleTuned cfg env st (ev j) true).1).2)
      else (st, []) := rfl
  rw [hunfold, if_pos h]

theorem runSweep_spec (cfg : Config) (env : Env) (n : Nat) (s : Fin n → Nat)
    (i0 p0 : Nat)
    (hn : 2 ≤ n) (hmono : StrictMono s) (hs : ∀ i, s i < bandSpan cfg)
    (hL : 0 < cfg.lower_limit) (hU : cfg.upper_limit < 2147483648)
    (hp0 : p0 ≤ bandSpan cfg) (hscan : env.scanRet = 0) :
    ∀ fuel j st, 1 ≤ j → n + 1 ≤ j + fuel →
      SweepInv cfg n s i0 p0 j st →
      ∃ k, j ≤ k ∧ k ≤ n ∧
        (runSweep cfg env (sweepEvents cfg n s i0) fuel j st).1.searchAll = false ∧
        (runSweep cfg env (sweepEvents cfg n s i0) fuel j st).1.searching = false ∧
        foundFreqs (runSweep cfg env (sweepEvents cfg n s i0) fuel j st).2 =
          (List.range (k + 1 - j)).map
            (fun t => freqHalToQt (cfg.lower_limit + stationAt n s i0 (j + t))) ++
          (if stationAt n s i0 k = stationAt n s i0 0 then []
           else [freqHalToQt (cfg.lower_limit + stationAt n s i0 0)]) := by
  have hspan : 0 < bandSpan cfg := lt_of_le_of_lt (Nat.zero_le _) (hs ⟨0, by omega⟩)
  have hb : bandSpan cfg = cfg.upper_limit - cfg.lower_limit := rfl
  have hLU : cfg.lower_limit ≤ cfg.upper_limit := by omega
  have hcycle := @cumAt_full_cycle n s i0 p0 (bandSpan cfg) hn hmono hspan hp0 hs
  intro fuel
  induction fuel with
  | zero =>
    intro j st hj hfuel hinv
    exfalso
    obtain ⟨-, -, -, -, -, -, -, -, -, -, -, hcum⟩ := hinv
    have hmle : cumAt (bandSpan cfg) n s i0 p0 (n + 1) ≤
        cumAt (bandSpan cfg) n s i0 p0 j :=
      cumAt_mono _ _ _ _ _ (by omega)
    omega
  | succ fuel ih =>
    intro j st hj hfuel hinv
    obtain ⟨hopen, hready, hmode, hsearching, hall, hlast, hstereo, htimer,
      hffv, hlfv, hsrv, hcum⟩ := hinv
    have hrj : stationAt n s i0 j < bandSpan cfg := stationAt_lt hs (by omega) i0 j
    have h1 : cfg.lower_limit ≤ cfg.lower_limit + stationAt n s i0 j :=
      Nat.le_add_right _ _
    have h2 : cfg.lower_limit + stationAt n s i0 j ≤ cfg.upper_limit := by omega
    have h4 : st.lastFrequency ≤ cfg.upper_limit - cfg.lower_limit := by
      rw [hlfv, ← hb]
      exact posAt_le (by omega) hp0 hs j
    have hffpos : 0 < st.firstFoundFrequency := by
      rw [hffv]
      omega
    have hsd : specDist cfg st (cfg.lower_limit + stationAt n s i0 j) =
        (circDist (bandSpan cfg) st.lastFrequency (stationAt n s i0 j) : Int) :=
      specDist_as_circDist cfg st _ (by rw [hlfv]; exact posAt_le (by omega) hp0 hs j) hLU
    have hps : posAt n s i0 p0 (j + 1) = stationAt n s i0 j := rfl
    have hsr2 : st.searchRange - specDist cfg st (cfg.lower_limit + stationAt n s i0 j) =
        (bandSpan cfg : Int) - (cumAt (bandSpan cfg) n s i0 p0 (j + 1) : Int) := by
      rw [hsrv, hsd, hlfv, cumAt_succ, hps]
      push_cast
      ring
    have hjn : j ≤ n := by
      by_contra hgt
      have hmle : cumAt (bandSpan cfg) n s i0 p0 (n + 1) ≤
          cumAt (bandSpan cfg) n s i0 p0 j :=
        cumAt_mono _ _ _ _ _ (by omega)
      omega
    have hstep := handleTuned_sweep_next cfg env st (cfg.lower_limit + stationAt n s i0 j)
      h1 h2 hU h4 hopen hready hscan hall hlast hmode hsearching hstereo htimer hffpos
    have hev : sweepEvents cfg n s i0 j = cfg.lower_limit + stationAt n s i0 j := rfl
    by_cases hcont : cumAt (bandSpan cfg) n s i0 p0 (j + 1) < bandSpan cfg
    · -- the sweep continues
      have hcpos : 0 < st.searchRange -
          specDist cfg st (cfg.lower_limit + stationAt n s i0 j) := by
        rw [hsr2]
        push_cast
        omega
      rw [if_pos hcpos] at hstep
      have hinv2 : SweepInv cfg n s i0 p0 (j + 1)
          {st with currentFreq := cfg.lower_limit + stationAt n s i0 j,
                   timerActive := true,
                   searchRange := st.searchRange -
                     specDist cfg st (cfg.lower_limit + stationAt n s i0 j),
                   lastFrequency := cfg.lower_limit + stationAt n s i0 j - cfg.lower_limit} := by
        refine ⟨hopen, hready, hmode, hsearching, hall, hlast, hstereo, rfl,
          hffv, ?_, ?_, hcont⟩
        · show cfg.lower_limit + stationAt n s i0 j - cfg.lower_limit =
            posAt n s i0 p0 (j + 1)
          rw [hps]
          omega
        · show st.searchRange -
              specDist cfg st (cfg.lower_limit + stationAt n s i0 j) =
            (bandSpan cfg : Int) - (cumAt (bandSpan cfg) n s i0 p0 (j + 1) : Int)
          exact hsr2
      obtain ⟨k, hk1, hk2, hA, hS, hF⟩ := ih (j + 1) _ (by omega) (by omega) hinv2
      refine ⟨k, by omega, hk2, ?_, ?_, ?_⟩
      · rw [runSweep_succ cfg env _ fuel j st hall, hev, hstep]
        exact hA
      · rw [runSweep_succ cfg env _ fuel j st hall, hev, hstep]
        exact hS
      · rw [runSweep_succ cfg env _ fuel j st hall, hev, hstep]
        show foundFreqs ([HalAction.stationFound
            (freqHalToQt (cfg.lower_limit + stationAt n s i0 j)) st.stationId,
            HalAction.hwScan true] ++ _) = _
        rw [foundFreqs_append, hF]
        have hhead : foundFreqs [HalAction.stationFound
            (freqHalToQt (cfg.lower_limit + stationAt n s i0 j)) st.stationId,
            HalAction.hwScan true] =
            [freqHalToQt (cfg.lower_limit + stationAt n s i0 j)] := rfl
        rw [hhead]
        have hklist : (List.range (k + 1 - j)).map
              (fun t => freqHalToQt (cfg.lower_limit + stationAt n s i0 (j + t))) =
            freqHalToQt (cfg.lower_limit + stationAt n s i0 j) ::
              (List.range (k + 1 - (j + 1))).map
                (fun t => freqHalToQt (cfg.lower_limit + stationAt n s i0 (j + 1 + t))) := by
          have hsplit : k + 1 - j = (k + 1 - (j + 1)) + 1 := by omega
          rw [hsplit, List.range_succ_eq_map, List.map_cons, List.map_map]
          refine congrArg₂ _ (by simp) ?_
          apply List.map_congr_left
          intro t ht
          simp only [Function.comp_apply]
          have harg : j + (t + 1) = j + 1 + t := by omega
          rw [harg]
        rw [hklist]
        simp
    · -- the range is exhausted by this step: terminal event
      have hcneg : ¬ 0 < st.searchRange -
          specDist cfg st (cfg.lower_limit + stationAt n s i0 j) := by
        rw [hsr2]
        push_cast
        omega
      rw [if_neg hcneg, hffv] at hstep
      by_cases heq : stationAt n s i0 j = stationAt n s i0 0
      · rw [if_neg (by simp [heq])] at hstep
        refine ⟨j, le_refl j, hjn, ?_, ?_, ?_⟩
        · rw [runSweep_succ cfg env _ fuel j st hall, hev, hstep,
            runSweep_not_searchAll _ _ _ _ _ _ rfl]
          rfl
        · rw [runSweep_succ cfg env _ fuel j st hall, hev, hstep,
            runSweep_not_searchAll _ _ _ _ _ _ rfl]
          rfl
        · rw [runSweep_succ cfg env _ fuel j st hall, hev, hstep,
            runSweep_not_searchAll _ _ _ _ _ _ rfl]
          rw [if_pos heq]
          simp [foundFreqs, List.range_succ]
      · rw [if_pos (by omega)] at hstep
        refine ⟨j, le_refl j, hjn, ?_, ?_, ?_⟩
        · rw [runSweep_succ cfg env _ fuel j st hall, hev, hstep,
            runSweep_not_searchAll _ _ _ _ _ _ rfl]
          rfl
        · rw [runSweep_succ cfg env _ fuel j st hall, hev, hstep,
            runSweep_not_searchAll _ _ _ _ _ _ rfl]
          rfl
        · rw [runSweep_succ cfg env _ fuel j st hall, hev, hstep,
            runSweep_not_searchAll _ _ _ _ _ _ rfl]
          rw [if_neg heq]
          simp [foundFreqs, List.range_succ]

theorem sweepStart_eq (cfg : Config) (env : Env) (F : Nat) (hscan : env.scanRet = 0) :
    sweepStart cfg env F =
      { baseState F with
        searching := true
        searchAll := true
        timerActive := true
        searchRange := int32ofNat (usub32 cfg.upper_limit cfg.lower_limit)
        lastFrequency := usub32 F cfg.lower_limit } := by
  unfold sweepStart searchAllStations
  simp [resetRDS, baseState, setSearching, seek, searchForward, tunerEnabled, hscan]

/-- C3 amended: a fast full-band sweep started anywhere in band, on a band
holding at least two stations which the hardware visits in cyclic order,
reports no duplicate frequency, and terminates within `n + 1` tuned events
with the sweep flag and `searching` cleared (the remaining range having been
consumed by the accumulated forward progress of `upper - lower`). -/
theorem c3_amended_fast_sweep (cfg : Config) (env : Env) (n : Nat)
    (s : Fin n → Nat) (i0 : Nat) (F : Nat)
    (hn : 2 ≤ n) (hmono : StrictMono s) (hs : ∀ i, s i < bandSpan cfg)
    (hL : 0 < cfg.lower_limit) (hU : cfg.upper_limit < 2147483648)
    (hF1 : cfg.lower_limit ≤ F) (hF2 : F ≤ cfg.upper_limit)
    (hscan : env.scanRet = 0) :
    (runSweep cfg env (sweepEvents cfg n s i0) (n + 1) 0 (sweepStart cfg env F)).1.searchAll = false ∧
    (runSweep cfg env (sweepEvents cfg n s i0) (n + 1) 0 (sweepStart cfg env F)).1.searching = false ∧
    (foundFreqs (runSweep cfg env (sweepEvents cfg n s i0) (n + 1) 0 (sweepStart cfg env F)).2).Nodup := by
  have hspan : 0 < bandSpan cfg := lt_of_le_of_lt (Nat.zero_le _) (hs ⟨0, by omega⟩)
  have hb : bandSpan cfg = cfg.upper_limit - cfg.lower_limit := rfl
  have hLU : cfg.lower_limit ≤ cfg.upper_limit := by omega
  have hu32 : u32 = 4294967296 := rfl
  have hp0 : F - cfg.lower_limit ≤ bandSpan cfg := by omega
  have hstart := sweepStart_eq cfg env F hscan
  rw [usub32_eq_sub hF1 (by omega), usub32_eq_sub hLU (by omega),
    int32ofNat_of_lt (by omega)] at hstart
  have hopen0 : (sweepStart cfg env F).tunerOpen = true := by simp [hstart, baseState]
  have hready0 : (sweepStart cfg env F).tunerReady = true := by simp [hstart, baseState]
  have hall0 : (sweepStart cfg env F).searchAll = true := by simp [hstart, baseState]
  have hlast0 : (sweepStart cfg env F).searchAllLast = false := by simp [hstart, baseState]
  have hmode0 : (sweepStart cfg env F).searchMode = SearchMode.searchFast := by
    simp [hstart, baseState]
  have hff0 : (sweepStart cfg env F).firstFoundFrequency = 0 := by simp [hstart, baseState]
  have hlf0 : (sweepStart cfg env F).lastFrequency = F - cfg.lower_limit := by
    simp [hstart, baseState]
  have hsr0 : (sweepStart cfg env F).searchRange =
      ((cfg.upper_limit - cfg.lower_limit : Nat) : Int) := by simp [hstart, baseState]
  have hr0lt : stationAt n s i0 0 < bandSpan cfg := stationAt_lt hs (by omega) i0 0
  have h1 : cfg.lower_limit ≤ cfg.lower_limit + stationAt n s i0 0 := Nat.le_add_right _ _
  have h2 : cfg.lower_limit + stationAt n s i0 0 ≤ cfg.upper_limit := by omega
  have h4 : (sweepStart cfg env F).lastFrequency ≤ cfg.upper_limit - cfg.lower_limit := by
    rw [hlf0]; omega
  have hsd0 : specDist cfg (sweepStart cfg env F) (cfg.lower_limit + stationAt n s i0 0) =
      (circDist (bandSpan cfg) (F - cfg.lower_limit) (stationAt n s i0 0) : Int) := by
    have h := specDist_as_circDist cfg (sweepStart cfg env F) (stationAt n s i0 0)
      (by rw [hlf0]; exact hp0) hLU
    rw [hlf0] at h
    exact h
  have hd0lt : circDist (bandSpan cfg) (F - cfg.lower_limit) (stationAt n s i0 0) <
      bandSpan cfg := circDist_lt hp0 hr0lt
  have hcont0 : 0 < (sweepStart cfg env F).searchRange -
      specDist cfg (sweepStart cfg env F) (cfg.lower_limit + stationAt n s i0 0) := by
    rw [hsr0, hsd0, ← hb]
    push_cast
    omega
  have hstep0 := handleTuned_sweep_first cfg env (sweepStart cfg env F)
    (cfg.lower_limit + stationAt n s i0 0) h1 h2 hU h4 hopen0 hready0 hscan
    hall0 hlast0 hmode0 hff0 hcont0
  have hcum1 : cumAt (bandSpan cfg) n s i0 (F - cfg.lower_limit) 1 =
      circDist (bandSpan cfg) (F - cfg.lower_limit) (stationAt n s i0 0) := by
    simp [cumAt, posAt]
  have hinv1 : SweepInv cfg n s i0 (F - cfg.lower_limit) 1
      {(sweepStart cfg env F) with
        currentFreq := cfg.lower_limit + stationAt n s i0 0,
        firstFoundFrequency := cfg.lower_limit + stationAt n s i0 0,
        timerActive := true,
        searchRange := (sweepStart cfg env F).searchRange -
          specDist cfg (sweepStart cfg env F) (cfg.lower_limit + stationAt n s i0 0),
        lastFrequency := cfg.lower_limit + stationAt n s i0 0 - cfg.lower_limit} := by
    refine ⟨hopen0, hready0, hmode0, ?_, hall0, hlast0, ?_, rfl, rfl, ?_, ?_, ?_⟩
    · show (sweepStart cfg env F).searching = true
      simp [hstart, baseState]
    · show (sweepStart cfg env F).stereoEnabled = true
      simp [hstart, baseState]
    · show cfg.lower_limit + stationAt n s i0 0 - cfg.lower_limit =
        posAt n s i0 (F - cfg.lower_limit) 1
      have : posAt n s i0 (F - cfg.lower_limit) 1 = stationAt n s i0 0 := rfl
      omega
    · show (sweepStart cfg env F).searchRange -
          specDist cfg (sweepStart cfg env F) (cfg.lower_limit + stationAt n s i0 0) =
        (bandSpan cfg : Int) - (cumAt (bandSpan cfg) n s i0 (F - cfg.lower_limit) 1 : Int)
      rw [hsr0, hsd0, hcum1, ← hb]
    · show cumAt (bandSpan cfg) n s i0 (F - cfg.lower_limit) 1 < bandSpan cfg
      rw [hcum1]
      exact hd0lt
  obtain ⟨k, hk1, hk2, hA, hS, hF⟩ := runSweep_spec cfg env n s i0 (F - cfg.lower_limit)
    hn hmono hs hL hU hp0 hscan n 1 _ (le_refl 1) (by omega) hinv1
  have hev0 : sweepEvents cfg n s i0 0 = cfg.lower_limit + stationAt n s i0 0 := rfl
  have hrw : runSweep cfg env (sweepEvents cfg n s i0) (n + 1) 0 (sweepStart cfg env F) =
      ((runSweep cfg env (sweepEvents cfg n s i0) n 1
          {(sweepStart cfg env F) with
            currentFreq := cfg.lower_limit + stationAt n s i0 0,
            firstFoundFrequency := cfg.lower_limit + stationAt n s i0 0,
            timerActive := true,
            searchRange := (sweepStart cfg env F).searchRange -
              specDist cfg (sweepStart cfg env F) (cfg.lower_limit + stationAt n s i0 0),
            lastFrequency := cfg.lower_limit + stationAt n s i0 0 - cfg.lower_limit}).1,
       [HalAction.hwScan true] ++
         (runSweep cfg env (sweepEvents cfg n s i0) n 1
          {(sweepStart cfg env F) with
            currentFreq := cfg.lower_limit + stationAt n s i0 0,
            firstFoundFrequency := cfg.lower_limit + stationAt n s i0 0,
            timerActive := true,
            searchRange := (sweepStart cfg env F).searchRange -
              specDist cfg (sweepStart cfg env F) (cfg.lower_limit + stationAt n s i0 0),
            lastFrequency := cfg.lower_limit + stationAt n s i0 0 - cfg.lower_limit}).2) := by
    rw [runSweep_succ cfg env _ n 0 _ hall0, hev0, hstep0]
  rw [hrw]
  have hk11 : k + 1 - 1 = k := by omega
  rw [hk11] at hF
  refine ⟨hA, hS, ?_⟩
  rw [foundFreqs_append]
  have hnil : foundFreqs [HalAction.hwScan true] = [] := rfl
  rw [hnil, List.nil_append, hF]
  -- no duplicates in the emitted list
  have hchan_inj : ∀ a b : Nat, a ≤ n → b ≤ n →
      freqHalToQt (cfg.lower_limit + stationAt n s i0 a) =
        freqHalToQt (cfg.lower_limit + stationAt n s i0 b) → a % n = b % n := by
    intro a b ha hb h
    have hlt : ∀ m : Nat, cfg.lower_limit + stationAt n s i0 m < 2147483648 := by
      intro m
      have := stationAt_lt hs (by omega : 0 < n) i0 m
      omega
    have h2 := freqHalToQt_inj (hlt a) (hlt b) h
    have h3 : stationAt n s i0 a = stationAt n s i0 b := by omega
    exact (stationAt_eq_iff (by omega) hmono i0 a b).mp h3
  have hper : stationAt n s i0 n = stationAt n s i0 0 := by
    rw [stationAt_eq_iff (by omega) hmono]
    simp [Nat.mod_self]
  have htops : ((List.range k).map
      (fun t => freqHalToQt (cfg.lower_limit + stationAt n s i0 (1 + t)))).Nodup := by
    refine List.Nodup.map_on ?_ (List.nodup_range k)
    intro t1 ht1 t2 ht2 hfe
    rw [List.mem_range] at ht1 ht2
    have hmods := hchan_inj (1 + t1) (1 + t2) (by omega) (by omega) hfe
    rw [mod_small_cases (by omega), mod_small_cases (by omega)] at hmods
    split_ifs at hmods
    all_goals omega
  by_cases heq : stationAt n s i0 k = stationAt n s i0 0
  · rw [if_pos heq]
    simpa using htops
  · rw [if_neg heq]
    refine List.Nodup.append htops (List.nodup_singleton _) ?_
    intro x hx1 hx2
    rw [List.mem_map] at hx1
    obtain ⟨t, ht, hxe⟩ := hx1
    rw [List.mem_range] at ht
    rw [List.mem_singleton] at hx2
    rw [hx2] at hxe
    have hmods := hchan_inj (1 + t) 0 (by omega) (by omega) hxe
    rw [mod_small_cases (by omega), Nat.zero_mod] at hmods
    by_cases hedge : 1 + t = n
    · rw [if_pos hedge] at hmods
      have hkn : k = n := by omega
      rw [hkn] at heq
      exact heq hper
    · rw [if_neg hedge] at hmods
      omega

theorem c3_amended_fast_sweep_witness :
    (2 ≤ 2 ∧ StrictMono (fun i : Fin 2 => 2000 + 3000 * i.val) ∧
      (∀ i : Fin 2, (fun i : Fin 2 => 2000 + 3000 * i.val) i < bandSpan fallbackConfig)) ∧
    ((runSweep fallbackConfig env0
        (sweepEvents fallbackConfig 2 (fun i : Fin 2 => 2000 + 3000 * i.val) 0) 3 0
        (sweepStart fallbackConfig env0 90000)).1.searchAll = false ∧
      (runSweep fallbackConfig env0
        (sweepEvents fallbackConfig 2 (fun i : Fin 2 => 2000 + 3000 * i.val) 0) 3 0
        (sweepStart fallbackConfig env0 90000)).1.searching = false ∧
      (foundFreqs (runSweep fallbackConfig env0
        (sweepEvents fallbackConfig 2 (fun i : Fin 2 => 2000 + 3000 * i.val) 0) 3 0
        (sweepStart fallbackConfig env0 90000)).2).Nodup) := by
  have hmono2 : StrictMono (fun i : Fin 2 => 2000 + 3000 * i.val) := by
    intro a b hab
    have h : a.val < b.val := hab
    show 2000 + 3000 * a.val < 2000 + 3000 * b.val
    omega
  have hs2 : ∀ i : Fin 2, (fun i : Fin 2 => 2000 + 3000 * i.val) i < bandSpan fallbackConfig := by
    intro i
    have h := i.isLt
    show 2000 + 3000 * i.val < bandSpan fallbackConfig
    have hbs : bandSpan fallbackConfig = 20500 := rfl
    omega
  exact ⟨⟨le_refl 2, hmono2, hs2⟩,
    c3_amended_fast_sweep fallbackConfig env0 2 _ 0 90000 (le_refl 2) hmono2 hs2
      (by decide) (by decide) (by decide) (by decide) rfl⟩
